import Mathlib

/-!
Shallow embedding of the device-session and command-dispatch subsystem of
`src/app.js` together with the command schema of `src/models/CommandModel.js`.

Strings are modelled by Lean `String`; times (`Date`) by `Nat` timestamps; the
Mongo collection backing the `Command` model by a `List Command` (documents in
collection order, ids unique in practice, `findByIdAndUpdate` updates the first
match).  The socket.io socket is modelled by its identifier, its set of rooms
and its `data.deviceId` slot; `socket.emit` events are recorded explicitly.
Deferred `setTimeout` deliveries are recorded as a schedule (delay, target,
event, payload) rather than executed.
-/

namespace BB

/-! ## Device identity normalizer

Modelled from the spec: `normalizeDeviceId` is imported in `src/app.js` from
`./helpers/deviceId.js`, which is not among the provided sources.  Per the
spec (§4.1) it is pure, deterministic and idempotent and fails on empty,
whitespace-only or token-less input; per the spec's examples (§8) the raw ids
"  Device-001 " and "device-001" resolve to the same canonical id and raw id
"a1" normalizes to "A1" — i.e. trimming plus upper-casing. -/

/-- Whitespace recognizer used by trimming (space, tab, LF, CR). -/
def isSpace (c : Char) : Bool :=
  c.toNat = 32 || c.toNat = 9 || c.toNat = 10 || c.toNat = 13

/-- Upper-case a single ASCII character, leaving all others unchanged. -/
def upChar (c : Char) : Char :=
  if 97 ≤ c.toNat ∧ c.toNat ≤ 122 then Char.ofNat (c.toNat - 32) else c

/-- Strip leading and trailing whitespace from a character list. -/
def trimChars (l : List Char) : List Char :=
  ((l.dropWhile isSpace).reverse.dropWhile isSpace).reverse

/-- Modelled from the spec: `normalizeDeviceId` from `helpers/deviceId.js`
(absent from the provided sources).  Trims surrounding whitespace, rejects
inputs with no remaining token, upper-cases the rest. -/
def normalizeDeviceId (raw : String) : Option String :=
  let t := trimChars raw.toList
  if t.isEmpty then none else some ⟨t.map upChar⟩

/-! ## Command store (`src/models/CommandModel.js`) -/

/-- The `payload` subdocument of `CommandSchema`. -/
structure Payload where
  slot : Option Nat
  number : Option String
  timestamp : Option Nat
  requestedBy : Option String
  autoExecute : Bool
  priority : String
deriving DecidableEq, Repr

/-- A `Command` document.  Fields follow `CommandSchema` (`deviceId`, `action`,
`payload`, `done`, `autoExecuted`, `executedAt`, `ussdCode`,
`executionMessage`, plus the `timestamps` pair); `error` is the extra field the
ack handler writes, and `id` stands for Mongo's `_id`. -/
structure Command where
  id : String
  deviceId : String
  action : String
  payload : Payload
  done : Bool
  autoExecuted : Bool
  executedAt : Option Nat
  ussdCode : Option String
  executionMessage : Option String
  error : Option String
  createdAt : Nat
  updatedAt : Nat
deriving DecidableEq, Repr

/-- JavaScript `x || null` on an optional string: the empty string is falsy. -/
def orNull (x : Option String) : Option String :=
  match x with
  | some s => if s.isEmpty then none else some s
  | none => none

/-- The `command-ack` event payload destructured by the handler
(`src/app.js:262`): absent fields are `none`. -/
structure AckData where
  commandId : Option String
  success : Bool
  error : Option String
  deviceId : Option String
  ussdCode : Option String
  message : Option String
deriving DecidableEq, Repr

/-- The update document of `Command.findByIdAndUpdate` in the `command-ack`
handler (`src/app.js:272`), applied to one document at time `now`:
`done: success`, `error: error || null`, `executedAt: new Date()`,
`ussdCode: ussdCode || null`, `executionMessage: message || null`,
`updatedAt: new Date()`. -/
def applyAckUpdate (now : Nat) (a : AckData) (c : Command) : Command :=
  { c with
    done := a.success
    error := orNull a.error
    executedAt := some now
    ussdCode := orNull a.ussdCode
    executionMessage := orNull a.message
    updatedAt := now }

/-- `Model.findByIdAndUpdate(cid, upd, { new: true })` over a list of
documents: update the (first) document whose id is `cid`; return the new list
and the updated document (`none` when no document matches). -/
def findByIdAndUpdate (upd : Command → Command) (cid : String) :
    List Command → List Command × Option Command
  | [] => ([], none)
  | c :: rest =>
    if c.id = cid then (upd c :: rest, some (upd c))
    else
      (c :: (findByIdAndUpdate upd cid rest).1, (findByIdAndUpdate upd cid rest).2)

/-- JavaScript falsiness of the `commandId` field guarding the update
(`if (commandId)` at `src/app.js:271`): absent or empty string. -/
def isFalsyId : Option String → Bool
  | none => true
  | some s => s.isEmpty

/-- The `command-ack` handler's effect on the command store
(`src/app.js:260-290`): when `commandId` is truthy, apply the ack update to
that document; otherwise leave the store untouched.  The handler never emits
to the socket and swallows store errors. -/
def commandAckHandler (now : Nat) (store : List Command) (a : AckData) :
    List Command :=
  if isFalsyId a.commandId then store
  else (findByIdAndUpdate (applyAckUpdate now a) (a.commandId.getD "") store).1

/-- The filter of the pending-commands query
`Command.find({ deviceId, done: false })` (`src/app.js:199`). -/
def pendingFor (d : String) (c : Command) : Bool :=
  c.deviceId == d && !c.done

/-- Sort order `.sort({ createdAt: -1 })`: newest first. -/
def newerFirst (a b : Command) : Prop :=
  b.createdAt ≤ a.createdAt

instance : DecidableRel newerFirst :=
  fun a b => Nat.decLe b.createdAt a.createdAt

instance : IsTotal Command newerFirst :=
  ⟨fun a b => Nat.le_total b.createdAt a.createdAt⟩

instance : IsTrans Command newerFirst :=
  ⟨fun _ _ _ h1 h2 => Nat.le_trans h2 h1⟩

/-- The pending-commands query of the register-device handler
(`src/app.js:199-201`): `deviceId == d && done == false`, newest first,
capped at 20. -/
def pendingQuery (store : List Command) (d : String) : List Command :=
  (List.insertionSort newerFirst (store.filter (pendingFor d))).take 20

/-! ## Socket sessions and the register-device handler (`src/app.js:152-243`) -/

/-- A socket.io connection: its id, the rooms it is in (socket.io keeps every
socket in the room named after its own id), its `data.deviceId` slot, and
whether the transport is still connected. -/
structure SocketState where
  id : String
  rooms : List String
  dataDeviceId : Option String
  connected : Bool
deriving DecidableEq, Repr

/-- Events the register-device handler emits to the registering socket:
`error { message }` on invalid ids, `registered { deviceId, socketId, rooms, ... }`
on success. -/
inductive OutEvent where
  | errorMsg (message : String)
  | registered (deviceId : String) (socketId : String) (rooms : List String)
deriving DecidableEq, Repr

/-- One scheduled `socket.emit` of a pending command inside a `setTimeout`
(`src/app.js:207-216`): fires `delay` ms after dispatch starts, on the socket
`target`, under event name `event`, carrying the command plus
`urgent: true, pending: true` flags. -/
structure Delivery where
  delay : Nat
  target : String
  event : String
  commandId : String
  urgent : Bool
  pendingFlag : Bool
deriving DecidableEq, Repr

/-- Outcome of running the register-device handler: the socket afterwards, the
events emitted to it, the deliveries scheduled, and the command store (the
handler only reads the store). -/
structure RegResult where
  socket : SocketState
  events : List OutEvent
  deliveries : List Delivery
  store : List Command
deriving DecidableEq, Repr

/-- `socket.join(room)`: a no-op when the socket is already in the room. -/
def joinRoom (s : SocketState) (room : String) : SocketState :=
  if room ∈ s.rooms then s else { s with rooms := s.rooms ++ [room] }

/-- The cleanup loop of the handler (`src/app.js:164-172`):
`socket.leave(room)` for every current room other than `socket.id`. -/
def leaveAllExceptSelf (s : SocketState) : SocketState :=
  { s with rooms := s.rooms.filter (fun r => r == s.id) }

/-- The staggered-delivery loop (`src/app.js:207-216`): command at position
`i` (counting from `i0`) is scheduled at `i * 2000` ms on the registering
socket, once under `command` and once under `call-forward-command`. -/
def dispatchSchedule (target : String) : Nat → List Command → List Delivery
  | _, [] => []
  | i, c :: rest =>
    ⟨i * 2000, target, "command", c.id, true, true⟩ ::
    ⟨i * 2000, target, "call-forward-command", c.id, true, true⟩ ::
    dispatchSchedule target (i + 1) rest

/-- The register-device handler (`src/app.js:152-243`).  `queryOk` models
whether the awaited `Command.find` succeeds; on failure the `catch` at line
220 swallows the error, so only the dispatch is lost.  Normalization failure
emits `error` and returns before any room change.  Otherwise the socket
leaves all rooms except its own id, joins the device room, records
`data.deviceId`, emits `registered`, and schedules the pending commands. -/
def registerDevice (s : SocketState) (rawId : String) (store : List Command)
    (queryOk : Bool) : RegResult :=
  match normalizeDeviceId rawId with
  | none => ⟨s, [.errorMsg "Invalid device ID"], [], store⟩
  | some deviceId =>
    let s3 : SocketState :=
      { joinRoom (leaveAllExceptSelf s) deviceId with dataDeviceId := some deviceId }
    let evs : List OutEvent := [.registered deviceId s3.id s3.rooms]
    if queryOk then
      ⟨s3, evs, dispatchSchedule s3.id 0 (pendingQuery store deviceId), store⟩
    else
      ⟨s3, evs, [], store⟩

/-- `membersOf(d)`: the connections currently in device room `d` (socket.io's
room view, derived from each socket's room set). -/
def membersOf (sockets : List SocketState) (d : String) : List String :=
  (sockets.filter (fun s => s.rooms.contains d)).map (fun s => s.id)

/-! ## Helper lemmas about the normalizer -/

theorem toNat_ofNat_lt {n : Nat} (h : n < 55296) : (Char.ofNat n).toNat = n := by
  have hv : n.isValidChar := Or.inl h
  rw [Char.ofNat, dif_pos hv]
  rfl

theorem isSpace_upChar (c : Char) : isSpace (upChar c) = isSpace c := by
  by_cases h : 97 ≤ c.toNat ∧ c.toNat ≤ 122
  · have hlt : c.toNat - 32 < 55296 := by omega
    have ht : upChar c = Char.ofNat (c.toNat - 32) := by
      unfold upChar
      rw [if_pos h]
    have htn : (upChar c).toNat = c.toNat - 32 := by rw [ht, toNat_ofNat_lt hlt]
    have hl : isSpace (upChar c) = false := by
      simp only [isSpace, htn, Bool.or_eq_false_iff, decide_eq_false_iff_not]
      omega
    have hr : isSpace c = false := by
      simp only [isSpace, Bool.or_eq_false_iff, decide_eq_false_iff_not]
      omega
    rw [hl, hr]
  · have ht : upChar c = c := by
      unfold upChar
      rw [if_neg h]
    rw [ht]

theorem upChar_upChar (c : Char) : upChar (upChar c) = upChar c := by
  by_cases h : 97 ≤ c.toNat ∧ c.toNat ≤ 122
  · have hlt : c.toNat - 32 < 55296 := by omega
    have ht : upChar c = Char.ofNat (c.toNat - 32) := by
      unfold upChar
      rw [if_pos h]
    have hn : ¬(97 ≤ (Char.ofNat (c.toNat - 32)).toNat ∧
        (Char.ofNat (c.toNat - 32)).toNat ≤ 122) := by
      rw [toNat_ofNat_lt hlt]
      omega
    calc upChar (upChar c) = upChar (Char.ofNat (c.toNat - 32)) := by rw [ht]
      _ = Char.ofNat (c.toNat - 32) := by
            unfold upChar
            rw [if_neg hn]
      _ = upChar c := ht.symm
  · have ht : upChar c = c := by
      unfold upChar
      rw [if_neg h]
    rw [ht]
    exact ht

theorem dropWhile_of_head_false {α : Type} (p : α → Bool) (l : List α)
    (h : ∀ a, l.head? = some a → p a = false) : l.dropWhile p = l := by
  cases l with
  | nil => rfl
  | cons a t => simp [List.dropWhile_cons, h a rfl]

theorem getLast?_dropWhile {α : Type} (p : α → Bool) (l : List α)
    (h : l.dropWhile p ≠ []) : (l.dropWhile p).getLast? = l.getLast? := by
  induction l with
  | nil => simp at h
  | cons a t ih =>
    rw [List.dropWhile_cons] at h ⊢
    by_cases hp : p a
    · simp only [hp, if_true] at h ⊢
      rw [ih h]
      cases t with
      | nil => simp [List.dropWhile] at h
      | cons b u => simp
    · simp [hp]

theorem trimChars_idem (l : List Char) : trimChars (trimChars l) = trimChars l := by
  unfold trimChars
  by_cases hCe : (l.dropWhile isSpace).reverse.dropWhile isSpace = []
  · simp [hCe]
  · have h1 : ((l.dropWhile isSpace).reverse.dropWhile isSpace).reverse.dropWhile isSpace
        = ((l.dropWhile isSpace).reverse.dropWhile isSpace).reverse := by
      apply dropWhile_of_head_false
      intro a ha
      rw [List.head?_reverse, getLast?_dropWhile _ _ hCe, List.getLast?_reverse] at ha
      have hh := List.head?_dropWhile_not isSpace l
      rw [ha] at hh
      exact hh
    rw [h1, List.reverse_reverse]
    have h2 : ((l.dropWhile isSpace).reverse.dropWhile isSpace).dropWhile isSpace
        = (l.dropWhile isSpace).reverse.dropWhile isSpace := by
      apply dropWhile_of_head_false
      intro a ha
      have hh := List.head?_dropWhile_not isSpace (l.dropWhile isSpace).reverse
      rw [ha] at hh
      exact hh
    rw [h2]

theorem isSpace_comp_upChar : isSpace ∘ upChar = isSpace :=
  funext isSpace_upChar

theorem trimChars_map_upChar (l : List Char) :
    trimChars (l.map upChar) = (trimChars l).map upChar := by
  unfold trimChars
  rw [List.dropWhile_map, isSpace_comp_upChar, ← List.map_reverse,
    List.dropWhile_map, isSpace_comp_upChar, ← List.map_reverse]

theorem map_upChar_idem (l : List Char) :
    (l.map upChar).map upChar = l.map upChar := by
  rw [List.map_map]
  have : upChar ∘ upChar = upChar := funext upChar_upChar
  rw [this]

/-! ## Claim C8 -/

/-- C8: for every raw identifier that normalizes successfully, normalization
is idempotent — `normalizeDeviceId` applied to its own output returns that
output unchanged, so raw ids such as "  Device-001 " and "device-001" resolve
to the same canonical device id. -/
theorem C8_normalize_idempotent (x y : String) (h : normalizeDeviceId x = some y) :
    normalizeDeviceId y = some y := by
  unfold normalizeDeviceId at h ⊢
  by_cases he : (trimChars x.toList).isEmpty = true
  · rw [if_pos he] at h
    exact absurd h (by simp)
  · rw [if_neg he] at h
    have hy : y = ⟨(trimChars x.toList).map upChar⟩ := (Option.some.inj h).symm
    subst hy
    have hlist : String.toList ⟨(trimChars x.toList).map upChar⟩
        = (trimChars x.toList).map upChar := rfl
    rw [hlist, trimChars_map_upChar, trimChars_idem]
    have he2 : ¬(((trimChars x.toList).map upChar).isEmpty = true) := by
      intro hcon
      rw [List.isEmpty_iff, List.map_eq_nil_iff] at hcon
      exact he (by rw [List.isEmpty_iff]; exact hcon)
    rw [if_neg he2, map_upChar_idem]

/-- Witness for C8: the raw id "  Device-001 " normalizes to "DEVICE-001"
(the same canonical id as "device-001"), and re-normalizing the canonical id
is the identity. -/
theorem C8_witness :
    normalizeDeviceId "  Device-001 " = some "DEVICE-001" ∧
    normalizeDeviceId "device-001" = some "DEVICE-001" ∧
    normalizeDeviceId "DEVICE-001" = some "DEVICE-001" :=
  ⟨by decide, by decide, C8_normalize_idempotent "  Device-001 " "DEVICE-001" (by decide)⟩

/-! ## Concrete sample data used by witnesses and counterexamples -/

/-- A sample command payload. -/
def samplePayload : Payload :=
  ⟨none, some "*123#", none, none, false, "normal"⟩

/-- A pending sample command for device "D1", created at time 10. -/
def sampleCmd : Command :=
  ⟨"c1", "D1", "EXEC_USSD", samplePayload, false, false, none, none, none, none, 10, 10⟩

/-- A second, newer pending sample command for device "D1". -/
def sampleCmd2 : Command :=
  { sampleCmd with id := "c2", createdAt := 20, updatedAt := 20 }

/-- A successful ack for `sampleCmd`. -/
def ackTrue : AckData :=
  ⟨some "c1", true, none, some "D1", some "*123#", some "ok"⟩

/-- A failed ack for `sampleCmd`. -/
def ackFalse : AckData :=
  ⟨some "c1", false, some "timeout", some "D1", none, none⟩

/-- An ack with no `commandId` field. -/
def ackNoId : AckData :=
  ⟨none, true, none, some "D1", none, none⟩

/-- A freshly connected socket (socket.io keeps it in its own id room). -/
def sockA : SocketState :=
  ⟨"sockA", ["sockA"], none, true⟩

/-- A second socket already registered in device room "D1". -/
def sockB : SocketState :=
  ⟨"sockB", ["sockB", "D1"], some "D1", true⟩

/-! ## Claim C10 -/

/-- C10: when the `command-ack` payload carries no truthy `commandId`
(absent or empty), the handler performs no store update at all and completes:
the command store is returned unchanged. -/
theorem C10_falsy_commandId_no_update (now : Nat) (store : List Command)
    (a : AckData) (h : isFalsyId a.commandId = true) :
    commandAckHandler now store a = store := by
  unfold commandAckHandler
  rw [if_pos h]

/-- Witness for C10: an ack without a `commandId` leaves a one-command store
untouched. -/
theorem C10_witness :
    isFalsyId ackNoId.commandId = true ∧
    commandAckHandler 7 [sampleCmd] ackNoId = [sampleCmd] :=
  ⟨by decide, C10_falsy_commandId_no_update 7 [sampleCmd] ackNoId (by decide)⟩

/-! ## Claim C9 -/

/-- C9: a command acknowledged with `success = false` still has `done = false`
afterwards, so it still satisfies the dispatch engine's pending predicate and
is returned again by the pending query on the device's next registration. -/
theorem C9_failed_ack_still_pending (now : Nat) (a : AckData) (c : Command)
    (h1 : a.success = false) (h2 : a.commandId = some c.id)
    (h3 : c.id.isEmpty = false) :
    pendingFor c.deviceId (applyAckUpdate now a c) = true ∧
    pendingQuery (commandAckHandler now [c] a) c.deviceId = [applyAckUpdate now a c] := by
  have hpf : pendingFor c.deviceId (applyAckUpdate now a c) = true := by
    simp [pendingFor, applyAckUpdate, h1]
  refine ⟨hpf, ?_⟩
  have hstore : commandAckHandler now [c] a = [applyAckUpdate now a c] := by
    unfold commandAckHandler
    rw [h2]
    simp only [isFalsyId, h3, Bool.false_eq_true, if_false, Option.getD_some]
    unfold findByIdAndUpdate
    rw [if_pos rfl]
  rw [hstore]
  unfold pendingQuery
  rw [List.filter_cons_of_pos hpf]
  rfl

/-- Witness for C9: after `ackFalse` on `sampleCmd`, the stored record still
matches the pending query for device "D1" and is returned by it. -/
theorem C9_witness :
    ackFalse.success = false ∧ ackFalse.commandId = some sampleCmd.id ∧
    sampleCmd.id.isEmpty = false ∧
    pendingFor sampleCmd.deviceId (applyAckUpdate 9 ackFalse sampleCmd) = true ∧
    pendingQuery (commandAckHandler 9 [sampleCmd] ackFalse) sampleCmd.deviceId
      = [applyAckUpdate 9 ackFalse sampleCmd] := by
  refine ⟨by decide, by decide, by decide, ?_, ?_⟩
  · exact (C9_failed_ack_still_pending 9 ackFalse sampleCmd (by decide) (by decide) (by decide)).1
  · exact (C9_failed_ack_still_pending 9 ackFalse sampleCmd (by decide) (by decide) (by decide)).2

/-! ## Claim C2 -/

/-- C2 counterexample: acknowledging the pending `sampleCmd` with
`success = false` leaves `done = false` — exactly the value the pending state
has — and the record still satisfies the dispatch engine's pending predicate
and is returned by the pending query.  There is no "failed" terminal state
distinct from pending in the stored representation. -/
theorem C2_counterexample :
    (applyAckUpdate 5 ackFalse sampleCmd).done = false ∧
    sampleCmd.done = false ∧
    pendingFor "D1" (applyAckUpdate 5 ackFalse sampleCmd) = true ∧
    pendingQuery [applyAckUpdate 5 ackFalse sampleCmd] "D1"
      = [applyAckUpdate 5 ackFalse sampleCmd] := by
  decide

/-- C2 amended: the ack update sets `done := success` and
`executedAt := now`.  With `success = true` the command becomes terminal
(`done = true`, excluded from the pending query); with `success = false` the
stored `done` is `false`, the same value pending commands have, so the record
still matches the pending predicate rather than entering a distinct terminal
failed state. -/
theorem C2_ack_outcome (now : Nat) (a : AckData) (c : Command) :
    (applyAckUpdate now a c).done = a.success ∧
    (applyAckUpdate now a c).executedAt = some now ∧
    (a.success = true → pendingFor c.deviceId (applyAckUpdate now a c) = false) ∧
    (a.success = false → pendingFor c.deviceId (applyAckUpdate now a c) = true) := by
  refine ⟨rfl, rfl, fun h => ?_, fun h => ?_⟩
  · simp [pendingFor, applyAckUpdate, h]
  · simp [pendingFor, applyAckUpdate, h]

/-- Witness for C2 (amended): concrete evaluation at `sampleCmd` for a
successful ack. -/
theorem C2_witness :
    (applyAckUpdate 5 ackTrue sampleCmd).done = ackTrue.success ∧
    (applyAckUpdate 5 ackTrue sampleCmd).executedAt = some 5 ∧
    (ackTrue.success = true →
      pendingFor sampleCmd.deviceId (applyAckUpdate 5 ackTrue sampleCmd) = false) ∧
    (ackTrue.success = false →
      pendingFor sampleCmd.deviceId (applyAckUpdate 5 ackTrue sampleCmd) = true) :=
  C2_ack_outcome 5 ackTrue sampleCmd

/-! ## Claim C1 -/

/-- C1 counterexample: the ack update is unconditional
(`findByIdAndUpdate` with no state guard), so a terminal state, once set, IS
overwritten by a later ack with a different outcome: after `ackTrue` the
stored command has `done = true`, but a subsequent `ackFalse` on the same
command rewrites it to `done = false`. -/
theorem C1_counterexample :
    (commandAckHandler 1 [sampleCmd] ackTrue).map Command.done = [true] ∧
    (commandAckHandler 2 (commandAckHandler 1 [sampleCmd] ackTrue) ackFalse).map
      Command.done = [false] := by
  decide

theorem findByIdAndUpdate_twice (f g : Command → Command) (cid : String)
    (hid : ∀ c, (f c).id = c.id) (hfg : ∀ c, g (f c) = g c) (l : List Command) :
    (findByIdAndUpdate g cid (findByIdAndUpdate f cid l).1).1
      = (findByIdAndUpdate g cid l).1 := by
  induction l with
  | nil => rfl
  | cons c rest ih =>
    by_cases h : c.id = cid
    · have e1 : (findByIdAndUpdate f cid (c :: rest)).1 = f c :: rest := by
        unfold findByIdAndUpdate
        rw [if_pos h]
      have e2 : (findByIdAndUpdate g cid (f c :: rest)).1 = g (f c) :: rest := by
        unfold findByIdAndUpdate
        rw [if_pos (by rw [hid c]; exact h)]
      have e3 : (findByIdAndUpdate g cid (c :: rest)).1 = g c :: rest := by
        unfold findByIdAndUpdate
        rw [if_pos h]
      rw [e1, e2, e3, hfg c]
    · have e1 : (findByIdAndUpdate f cid (c :: rest)).1
          = c :: (findByIdAndUpdate f cid rest).1 := by
        simp only [findByIdAndUpdate]
        rw [if_neg h]
      have e2 : ∀ l2 : List Command, (findByIdAndUpdate g cid (c :: l2)).1
          = c :: (findByIdAndUpdate g cid l2).1 := by
        intro l2
        simp only [findByIdAndUpdate]
        rw [if_neg h]
      rw [e1, e2, e2, ih]

/-- C1 amended: calling the ack handler twice with the identical outcome is
idempotent as far as the stored state is concerned — the double application
equals a single application at the second call's time (so with equal call
times the second call is literally a no-op, not an error).  This holds by
unconditional overwrite (last-write-wins), not by an atomic conditional
guard, and (per the counterexample) a later ack with a different outcome
does overwrite the terminal state. -/
theorem C1_ack_idempotent (n1 n2 : Nat) (store : List Command) (a : AckData) :
    commandAckHandler n2 (commandAckHandler n1 store a) a
      = commandAckHandler n2 store a := by
  unfold commandAckHandler
  by_cases h : isFalsyId a.commandId = true
  · rw [if_pos h, if_pos h, if_pos h]
  · rw [if_neg h, if_neg h, if_neg h]
    exact findByIdAndUpdate_twice (applyAckUpdate n1 a) (applyAckUpdate n2 a) _
      (fun _ => rfl) (fun _ => rfl) store

/-! ## Claim C7 -/

theorem findByIdAndUpdate_map_frame {β : Type} (f : Command → Command)
    (cid : String) (pr : Command → β) (hf : ∀ c, pr (f c) = pr c)
    (l : List Command) :
    (findByIdAndUpdate f cid l).1.map pr = l.map pr := by
  induction l with
  | nil => rfl
  | cons c rest ih =>
    by_cases h : c.id = cid
    · have e1 : (findByIdAndUpdate f cid (c :: rest)).1 = f c :: rest := by
        unfold findByIdAndUpdate
        rw [if_pos h]
      rw [e1, List.map_cons, List.map_cons, hf c]
    · have e1 : (findByIdAndUpdate f cid (c :: rest)).1
          = c :: (findByIdAndUpdate f cid rest).1 := by
        simp only [findByIdAndUpdate]
        rw [if_neg h]
      rw [e1, List.map_cons, List.map_cons, ih]

/-- C7: command records are mutated only by ack application.  The
register-device dispatch returns the store it was given (delivery writes
nothing); the ack update rewrites only the status/result fields, leaving
`deviceId`, `action`, `payload` and `createdAt` of every stored document
unchanged — in particular `Command.deviceId` is immutable. -/
theorem C7_frame :
    (∀ (s : SocketState) (rawId : String) (store : List Command) (q : Bool),
      (registerDevice s rawId store q).store = store) ∧
    (∀ (now : Nat) (a : AckData) (c : Command),
      (applyAckUpdate now a c).deviceId = c.deviceId ∧
      (applyAckUpdate now a c).action = c.action ∧
      (applyAckUpdate now a c).payload = c.payload ∧
      (applyAckUpdate now a c).createdAt = c.createdAt) ∧
    (∀ (now : Nat) (store : List Command) (a : AckData),
      (commandAckHandler now store a).map
          (fun c => (c.deviceId, c.action, c.payload, c.createdAt))
        = store.map (fun c => (c.deviceId, c.action, c.payload, c.createdAt))) := by
  refine ⟨?_, ?_, ?_⟩
  · intro s rawId store q
    unfold registerDevice
    cases hn : normalizeDeviceId rawId with
    | none => rfl
    | some d =>
      by_cases hq : q
      · simp [hq]
      · simp [hq]
  · intro now a c
    exact ⟨rfl, rfl, rfl, rfl⟩
  · intro now store a
    unfold commandAckHandler
    by_cases h : isFalsyId a.commandId = true
    · rw [if_pos h]
    · rw [if_neg h]
      exact findByIdAndUpdate_map_frame (applyAckUpdate now a) (a.commandId.getD "")
        (fun c => (c.deviceId, c.action, c.payload, c.createdAt)) (fun _ => rfl) store

/-! ## Helper lemmas about the register-device handler -/

theorem joinRoom_id (s : SocketState) (r : String) : (joinRoom s r).id = s.id := by
  unfold joinRoom
  by_cases h : r ∈ s.rooms
  · rw [if_pos h]
  · rw [if_neg h]

theorem joinRoom_connected (s : SocketState) (r : String) :
    (joinRoom s r).connected = s.connected := by
  unfold joinRoom
  by_cases h : r ∈ s.rooms
  · rw [if_pos h]
  · rw [if_neg h]

theorem mem_joinRoom_self (s : SocketState) (r : String) : r ∈ (joinRoom s r).rooms := by
  unfold joinRoom
  by_cases h : r ∈ s.rooms
  · rw [if_pos h]
    exact h
  · rw [if_neg h]
    simp

theorem mem_joinRoom (s : SocketState) (room r : String)
    (h : r ∈ (joinRoom s room).rooms) : r ∈ s.rooms ∨ r = room := by
  unfold joinRoom at h
  by_cases hm : room ∈ s.rooms
  · rw [if_pos hm] at h
    exact Or.inl h
  · rw [if_neg hm] at h
    simp only [List.mem_append, List.mem_singleton] at h
    exact h

theorem mem_leaveAllExceptSelf (s : SocketState) (r : String)
    (h : r ∈ (leaveAllExceptSelf s).rooms) : r = s.id := by
  unfold leaveAllExceptSelf at h
  simp only [List.mem_filter, beq_iff_eq] at h
  exact h.2

theorem registerDevice_socket_valid (s : SocketState) (rawId : String)
    (store : List Command) (q : Bool) (d : String)
    (h : normalizeDeviceId rawId = some d) :
    (registerDevice s rawId store q).socket
      = { joinRoom (leaveAllExceptSelf s) d with dataDeviceId := some d } := by
  by_cases hq : q
  · simp [registerDevice, h, hq]
  · simp [registerDevice, h, hq]

/-! ## Claim C4 -/

/-- C4: when the pending-commands query fails (modelled by `queryOk = false`,
the `catch` at `src/app.js:220` swallowing the store error), only the dispatch
is lost: the connection is still joined to the device room, the `registered`
confirmation is still emitted, the connection stays in its previous
connected state, no deliveries are scheduled and the store is untouched. -/
theorem C4_store_failure_spares_session (s : SocketState) (rawId : String)
    (store : List Command) (d : String) (h : normalizeDeviceId rawId = some d) :
    d ∈ (registerDevice s rawId store false).socket.rooms ∧
    (registerDevice s rawId store false).events
      = [.registered d (registerDevice s rawId store false).socket.id
          (registerDevice s rawId store false).socket.rooms] ∧
    (registerDevice s rawId store false).socket.connected = s.connected ∧
    (registerDevice s rawId store false).deliveries = [] ∧
    (registerDevice s rawId store false).store = store := by
  have hs := registerDevice_socket_valid s rawId store false d h
  refine ⟨?_, ?_, ?_, ?_, ?_⟩
  · rw [hs]
    exact mem_joinRoom_self _ _
  · rw [hs]
    simp [registerDevice, h]
  · rw [hs]
    exact joinRoom_connected _ _
  · simp [registerDevice, h]
  · simp [registerDevice, h]

/-- Witness for C4: concrete store-failure registration of `sockA` under raw
id " d1 ". -/
theorem C4_witness :
    normalizeDeviceId " d1 " = some "D1" ∧
    "D1" ∈ (registerDevice sockA " d1 " [sampleCmd] false).socket.rooms ∧
    (registerDevice sockA " d1 " [sampleCmd] false).events
      = [.registered "D1" (registerDevice sockA " d1 " [sampleCmd] false).socket.id
          (registerDevice sockA " d1 " [sampleCmd] false).socket.rooms] ∧
    (registerDevice sockA " d1 " [sampleCmd] false).socket.connected = sockA.connected ∧
    (registerDevice sockA " d1 " [sampleCmd] false).deliveries = [] ∧
    (registerDevice sockA " d1 " [sampleCmd] false).store = [sampleCmd] := by
  have h := C4_store_failure_spares_session sockA " d1 " [sampleCmd] "D1" (by decide)
  exact ⟨by decide, h.1, h.2.1, h.2.2.1, h.2.2.2.1, h.2.2.2.2⟩

/-! ## Claim C5 -/

/-- C5: a raw id that fails normalization makes the handler emit the `error`
event and return before any other step — the socket is completely unchanged
(no join, still connected), no dispatch is scheduled, the store untouched.
Conversely, on a raw id that normalizes, the handler emits only the
`registered` confirmation, so the `error` event on invalid registration is
the only failure surfaced to the device by the handler (internal store
failures are covered by C4). -/
theorem C5_invalid_id_surfaces_error (s : SocketState) (store : List Command)
    (q : Bool) (rawId raw2 d2 : String)
    (h : normalizeDeviceId rawId = none) (h2 : normalizeDeviceId raw2 = some d2) :
    registerDevice s rawId store q
      = ⟨s, [.errorMsg "Invalid device ID"], [], store⟩ ∧
    (registerDevice s raw2 store q).events
      = [.registered d2 (registerDevice s raw2 store q).socket.id
          (registerDevice s raw2 store q).socket.rooms] := by
  constructor
  · simp [registerDevice, h]
  · rw [registerDevice_socket_valid s raw2 store q d2 h2]
    by_cases hq : q
    · simp [registerDevice, h2, hq]
    · simp [registerDevice, h2, hq]

/-- Witness for C5: the whitespace-only raw id "   " is rejected with the
`error` event and no state change, while the valid raw id " d1 " yields only
the `registered` event. -/
theorem C5_witness :
    normalizeDeviceId "   " = none ∧
    normalizeDeviceId " d1 " = some "D1" ∧
    registerDevice sockA "   " [sampleCmd] true
      = ⟨sockA, [.errorMsg "Invalid device ID"], [], [sampleCmd]⟩ ∧
    (registerDevice sockA " d1 " [sampleCmd] true).events
      = [.registered "D1" (registerDevice sockA " d1 " [sampleCmd] true).socket.id
          (registerDevice sockA " d1 " [sampleCmd] true).socket.rooms] := by
  have h := C5_invalid_id_surfaces_error sockA [sampleCmd] true "   " " d1 " "D1"
    (by decide) (by decide)
  exact ⟨by decide, by decide, h.1, h.2⟩

/-! ## Claim C6 -/

/-- C6: re-registration fully migrates room membership.  A socket that
registers under raw id 1 and then raw id 2 (normalizing to distinct device
ids, both different from the socket's own id room) ends up in exactly its own
id room plus the second device's room: its room list is its original self
rooms followed by the second device id, the second device's room is a member,
and the first device's room is not. -/
theorem C6_reregistration_migrates (s : SocketState) (raw1 raw2 d1 d2 : String)
    (store1 store2 : List Command) (q1 q2 : Bool)
    (h1 : normalizeDeviceId raw1 = some d1) (h2 : normalizeDeviceId raw2 = some d2)
    (hne : d1 ≠ d2) (hd1 : d1 ≠ s.id) (hd2 : d2 ≠ s.id) :
    (registerDevice (registerDevice s raw1 store1 q1).socket raw2 store2 q2).socket.rooms
      = s.rooms.filter (fun r => r == s.id) ++ [d2] ∧
    d2 ∈ (registerDevice (registerDevice s raw1 store1 q1).socket raw2 store2 q2).socket.rooms ∧
    d1 ∉ (registerDevice (registerDevice s raw1 store1 q1).socket raw2 store2 q2).socket.rooms := by
  have e1 := registerDevice_socket_valid s raw1 store1 q1 d1 h1
  have e2 := registerDevice_socket_valid (registerDevice s raw1 store1 q1).socket
    raw2 store2 q2 d2 h2
  have hid1 : (registerDevice s raw1 store1 q1).socket.id = s.id := by
    rw [e1]
    exact joinRoom_id _ _
  have hrooms1 : (registerDevice s raw1 store1 q1).socket.rooms
      = s.rooms.filter (fun r => r == s.id) ++ [d1] := by
    rw [e1]
    show (joinRoom (leaveAllExceptSelf s) d1).rooms
      = s.rooms.filter (fun r => r == s.id) ++ [d1]
    have hnm : d1 ∉ (leaveAllExceptSelf s).rooms :=
      fun hmem => hd1 (mem_leaveAllExceptSelf s d1 hmem)
    unfold joinRoom
    rw [if_neg hnm]
    rfl
  have hrooms2 : (registerDevice (registerDevice s raw1 store1 q1).socket
      raw2 store2 q2).socket.rooms
      = s.rooms.filter (fun r => r == s.id) ++ [d2] := by
    rw [e2]
    show (joinRoom (leaveAllExceptSelf (registerDevice s raw1 store1 q1).socket) d2).rooms
      = s.rooms.filter (fun r => r == s.id) ++ [d2]
    have hleave : (leaveAllExceptSelf (registerDevice s raw1 store1 q1).socket).rooms
        = s.rooms.filter (fun r => r == s.id) := by
      show (registerDevice s raw1 store1 q1).socket.rooms.filter
          (fun r => r == (registerDevice s raw1 store1 q1).socket.id)
        = s.rooms.filter (fun r => r == s.id)
      rw [hid1, hrooms1, List.filter_append]
      have hfix : (s.rooms.filter (fun r => r == s.id)).filter (fun r => r == s.id)
          = s.rooms.filter (fun r => r == s.id) := by
        rw [List.filter_filter]
        simp
      have hdrop : [d1].filter (fun r => r == s.id) = [] := by
        simp [List.filter, beq_eq_false_iff_ne.mpr hd1]
      rw [hfix, hdrop, List.append_nil]
    have hnotmem : d2 ∉
        (leaveAllExceptSelf (registerDevice s raw1 store1 q1).socket).rooms := by
      rw [hleave]
      intro hmem
      rw [List.mem_filter] at hmem
      exact hd2 (eq_of_beq hmem.2)
    unfold joinRoom
    rw [if_neg hnotmem]
    show (leaveAllExceptSelf (registerDevice s raw1 store1 q1).socket).rooms ++ [d2]
      = s.rooms.filter (fun r => r == s.id) ++ [d2]
    rw [hleave]
  refine ⟨hrooms2, ?_, ?_⟩
  · rw [hrooms2]
    simp
  · rw [hrooms2]
    intro hmem
    rw [List.mem_append] at hmem
    cases hmem with
    | inl hl =>
      rw [List.mem_filter] at hl
      exact hd1 (eq_of_beq hl.2)
    | inr hr =>
      rw [List.mem_singleton] at hr
      exact hne hr

/-- Witness for C6: `sockA` registers under " a1 " (canonical "A1") and then
under "b2" (canonical "B2"); afterwards its rooms are exactly its own id room
plus "B2", and "A1" is gone. -/
theorem C6_witness :
    normalizeDeviceId " a1 " = some "A1" ∧
    normalizeDeviceId "b2" = some "B2" ∧
    (registerDevice (registerDevice sockA " a1 " [] true).socket "b2" [] true).socket.rooms
      = sockA.rooms.filter (fun r => r == sockA.id) ++ ["B2"] ∧
    "B2" ∈ (registerDevice (registerDevice sockA " a1 " [] true).socket
      "b2" [] true).socket.rooms ∧
    "A1" ∉ (registerDevice (registerDevice sockA " a1 " [] true).socket
      "b2" [] true).socket.rooms := by
  have h := C6_reregistration_migrates sockA " a1 " "b2" "A1" "B2" [] [] true true
    (by decide) (by decide) (by decide) (by decide) (by decide)
  exact ⟨by decide, by decide, h.1, h.2.1, h.2.2⟩

/-! ## Claim C3 -/

/-- C3 counterexample: pending-command delivery is not a fan-out to
`membersOf(D)`.  With `sockB` already a member of room "D1", registration by
`sockA` schedules deliveries whose targets are all `sockA`; `sockB`, though in
`membersOf "D1"`, is the target of none of them. -/
theorem C3_counterexample :
    "sockB" ∈ membersOf [(registerDevice sockA " d1 " [sampleCmd] true).socket, sockB] "D1" ∧
    (registerDevice sockA " d1 " [sampleCmd] true).deliveries ≠ [] ∧
    (registerDevice sockA " d1 " [sampleCmd] true).deliveries.map Delivery.target
      = ["sockA", "sockA"] := by
  decide

theorem dispatchSchedule_targets (t : String) (i : Nat) (cmds : List Command) :
    (dispatchSchedule t i cmds).map Delivery.target
      = List.replicate (2 * cmds.length) t := by
  induction cmds generalizing i with
  | nil => rfl
  | cons c rest ih =>
    simp only [dispatchSchedule, List.map_cons, List.length_cons]
    rw [ih (i + 1)]
    have h2 : 2 * (rest.length + 1) = 2 * rest.length + 1 + 1 := by ring
    rw [h2, List.replicate_succ, List.replicate_succ]

theorem dispatchSchedule_command_events (t : String) (i : Nat) (cmds : List Command) :
    ((dispatchSchedule t i cmds).filter (fun del => del.event == "command")).map
        (fun del => (del.delay, del.commandId))
      = (List.enumFrom i cmds).map (fun p => (p.1 * 2000, p.2.id)) := by
  induction cmds generalizing i with
  | nil => rfl
  | cons c rest ih =>
    simp [dispatchSchedule, List.enumFrom, List.filter_cons, ih (i + 1)]

theorem pendingQuery_sorted (store : List Command) (d : String) :
    List.Sorted newerFirst (pendingQuery store d) := by
  unfold pendingQuery
  exact List.Pairwise.sublist (List.take_sublist 20 _)
    (List.sorted_insertionSort newerFirst _)

/-- C3 amended: on registration with a valid raw id, the pending query selects
`deviceId == d && done == false`, sorted newest-first and capped at 20, and
every scheduled delivery targets the registering connection only (two events
per command, at delays 0, 2000, 4000, … ms in query order) — the commands are
NOT fanned out to the other members of the device room (see the
counterexample). -/
theorem C3_dispatch_pacing (s : SocketState) (rawId d : String)
    (store : List Command) (h : normalizeDeviceId rawId = some d) :
    (registerDevice s rawId store true).deliveries.map Delivery.target
      = List.replicate (2 * (pendingQuery store d).length)
          (registerDevice s rawId store true).socket.id ∧
    ((registerDevice s rawId store true).deliveries.filter
        (fun del => del.event == "command")).map (fun del => (del.delay, del.commandId))
      = (pendingQuery store d).enum.map (fun p => (p.1 * 2000, p.2.id)) ∧
    List.Sorted newerFirst (pendingQuery store d) ∧
    (pendingQuery store d).length ≤ 20 := by
  have hdel : (registerDevice s rawId store true).deliveries
      = dispatchSchedule (registerDevice s rawId store true).socket.id 0
          (pendingQuery store d) := by
    simp [registerDevice, h]
  refine ⟨?_, ?_, pendingQuery_sorted store d, ?_⟩
  · rw [hdel, dispatchSchedule_targets]
  · rw [hdel, dispatchSchedule_command_events]
    rfl
  · exact List.length_take_le 20 _

/-- Witness for C3 (amended): registering `sockA` for device "D1" with two
pending commands delivers the newer `sampleCmd2` at delay 0 and the older
`sampleCmd` at delay 2000, both only to `sockA`. -/
theorem C3_witness :
    normalizeDeviceId " d1 " = some "D1" ∧
    (registerDevice sockA " d1 " [sampleCmd, sampleCmd2] true).deliveries.map
        Delivery.target
      = List.replicate (2 * (pendingQuery [sampleCmd, sampleCmd2] "D1").length)
          (registerDevice sockA " d1 " [sampleCmd, sampleCmd2] true).socket.id ∧
    ((registerDevice sockA " d1 " [sampleCmd, sampleCmd2] true).deliveries.filter
        (fun del => del.event == "command")).map (fun del => (del.delay, del.commandId))
      = (pendingQuery [sampleCmd, sampleCmd2] "D1").enum.map
          (fun p => (p.1 * 2000, p.2.id)) ∧
    List.Sorted newerFirst (pendingQuery [sampleCmd, sampleCmd2] "D1") ∧
    (pendingQuery [sampleCmd, sampleCmd2] "D1").length ≤ 20 := by
  have h := C3_dispatch_pacing sockA " d1 " "D1" [sampleCmd, sampleCmd2] (by decide)
  exact ⟨by decide, h.1, h.2.1, h.2.2.1, h.2.2.2⟩

end BB
